import Mathlib

/-!
Verification development for the screen_streamer frame pipeline
(`src/main.rs`).  The program captures raw BGRA frames from the primary
display, reorders each frame to RGBA, JPEG-encodes it, publishes the JPEG
bytes through a `tokio::sync::broadcast` channel of capacity 16, and
serves them to HTTP viewers as an MJPEG stream.

The definitions below shallowly embed:
  * the BGRA→RGBA byte-reordering loop (`bgraToRgba`, main.rs:30–34);
  * the `tokio::sync::broadcast` channel created at main.rs:11
    (`Channel`, `send`, `subscribe`, `recv`), following tokio's documented
    ring-buffer semantics: values get consecutive positions, only the last
    `cap` positions stay readable, each receiver holds an independent
    cursor, a cursor that fell behind the readable window yields
    `Lagged(missed)` and jumps to the oldest readable position, and
    `Closed` is returned only once every `Sender` handle is dropped and
    the backlog is drained;
  * the capture-loop body (`captureStep`, main.rs:22–58), with the JPEG
    encoder abstracted as a fallible function parameter;
  * the MJPEG wire-record emission of the `/stream` route
    (`mjpegChunks`, main.rs:71–79);
  * the stream-writer receive loop (`runWriter`, main.rs:70–82);
  * the `Sender`-handle accounting of `main` (`mainSenderCount`,
    `afterCaptureFatal`): `main` keeps the original `frame_tx`, the
    capture thread owns one clone, and the `/stream` route closure owns
    one clone; a fatal capture error breaks only the capture thread's
    loop and so drops only that thread's clone.
-/

namespace Streamer

set_option maxRecDepth 100000

/-- A frame is a byte sequence (`Vec<u8>` in the source). -/
abbrev Frame := List Nat

/-- The BGRA→RGBA conversion loop at main.rs:30–34: the source iterates
`frame.chunks_exact(4)` and for each chunk `[b, g, r, a]` appends
`[chunk[2], chunk[1], chunk[0], chunk[3]] = [r, g, b, a]`.  `chunks_exact`
silently drops a trailing remainder of fewer than 4 bytes. -/
def bgraToRgba : List Nat → List Nat
  | b :: g :: r :: a :: rest => r :: g :: b :: a :: bgraToRgba rest
  | _ => []

/-- Result of one `Receiver::recv` step of the broadcast channel:
`Ok(frame)`, `Err(Lagged(n))`, `Err(Closed)`, or `Poll::Pending` (the
caller keeps waiting; never surfaced to the source's `match`). -/
inductive RecvResult where
  | ok (f : Frame)
  | lagged (n : Nat)
  | closed
  | pend
  deriving DecidableEq

/-- State of the `tokio::sync::broadcast::channel::<Vec<u8>>(16)` created
at main.rs:11.  `history` records every value ever accepted by `send`, in
order; position `i` of a value is its index in `history`.  Only the last
`cap` positions are still readable.  `senders` counts live `Sender`
handles and `receivers` live `Receiver` handles.  A receiver is
represented outside this structure by its cursor: the next position it
will read. -/
structure Channel where
  history : List Frame
  senders : Nat
  receivers : Nat
  cap : Nat
  deriving DecidableEq

/-- Position one past the newest value: the next position `send` fills. -/
def Channel.tailPos (ch : Channel) : Nat := ch.history.length

/-- Oldest position still readable: the window of readable positions is
`[tailPos - cap, tailPos)` (clamped at 0). -/
def Channel.oldest (ch : Channel) : Nat := ch.tailPos - ch.cap

/-- `Sender::send`: with no live receiver, tokio returns
`Err(SendError(value))` and stores nothing; otherwise the value is
appended at the tail position (evicting the oldest readable value once
the window is full) and `Ok` is returned.  Never blocks: it is a total
function of the state. -/
def send (ch : Channel) (f : Frame) : Channel × Bool :=
  if ch.receivers = 0 then (ch, false)
  else ({ ch with history := ch.history ++ [f] }, true)

/-- `Sender::subscribe` (main.rs:68): a new receiver whose cursor starts
at the current tail position, so it sees only values sent afterwards. -/
def subscribe (ch : Channel) : Channel × Nat :=
  ({ ch with receivers := ch.receivers + 1 }, ch.tailPos)

/-- `Receiver::recv` for a receiver whose cursor is `c`: a cursor behind
the readable window yields `Lagged(missed)` and jumps to the oldest
readable position; a readable position yields its value and advances the
cursor; a drained receiver sees `Closed` if no `Sender` is live, and
otherwise keeps waiting. -/
def recv (ch : Channel) (c : Nat) : RecvResult × Nat :=
  if c < ch.oldest then (.lagged (ch.oldest - c), ch.oldest)
  else
    match ch.history[c]? with
    | some f => (.ok f, c + 1)
    | none => if ch.senders = 0 then (.closed, c) else (.pend, c)

/-- Repeated `recv` from cursor `c` with step budget `fuel`, recording
each `Ok`/`Lagged` result in order and stopping at the first
`Closed`/`Pending` (or when the budget runs out). -/
def drain (ch : Channel) : Nat → Nat → List RecvResult
  | _, 0 => []
  | c, fuel + 1 =>
    match recv ch c with
    | (.ok f, c2) => .ok f :: drain ch c2 fuel
    | (.lagged n, c2) => .lagged n :: drain ch c2 fuel
    | (_, _) => []

/-- A prompt subscriber: for each frame of the list, the producer
publishes it and the subscriber immediately reads once.  Returns the
subscriber's `recv` results in order.  `recv` never mutates the channel,
so only the sends advance the shared state. -/
def pubThenRead : Channel → Nat → List Frame → List RecvResult
  | _, _, [] => []
  | ch, c, f :: fs =>
    let ch2 := (send ch f).1
    let r := recv ch2 c
    r.1 :: pubThenRead ch2 r.2 fs

/-- Result of `capturer.frame()` (main.rs:23): a raw frame, a not-ready
signal (`ErrorKind::WouldBlock`), or any other (fatal) error. -/
inductive PollResult where
  | ok (frame : List Nat)
  | wouldBlock
  | fatal
  deriving DecidableEq

/-- What one capture-loop iteration did. -/
inductive StepOutcome where
  | sent
  | droppedSize
  | droppedImage
  | droppedEncode
  | slept
  | fatalStop
  deriving DecidableEq

/-- Whether the capture loop keeps running after a step: everything except
the `break` on a fatal error (main.rs:56). -/
def StepOutcome.loops : StepOutcome → Bool
  | .fatalStop => false
  | _ => true

/-- `ImageBuffer::<Rgba<u8>, _>::from_raw(w, h, buf)` (main.rs:36):
succeeds iff the container holds at least `w * h * 4` bytes
(`check_image_fits` in the image crate). -/
def imageFromRaw (w h : Nat) (buf : List Nat) : Option (List Nat) :=
  if w * h * 4 ≤ buf.length then some buf else none

/-- One iteration of the capture loop (main.rs:22–58), with the JPEG
encoder abstracted as `jpegEncode` (`none` = encode error branch at
main.rs:42–44).  `Ok` frames are size-checked, reordered, wrapped via
`imageFromRaw`, encoded, and sent with the send result discarded
(`let _ = frame_tx.send(...)` at main.rs:46); `WouldBlock` sleeps ~16 ms
and retries; any other error breaks the loop. -/
def captureStep (jpegEncode : List Nat → Option Frame) (w h : Nat)
    (ch : Channel) : PollResult → Channel × StepOutcome
  | .ok frame =>
    if frame.length ≠ w * h * 4 then (ch, .droppedSize)
    else
      match imageFromRaw w h (bgraToRgba frame) with
      | none => (ch, .droppedImage)
      | some img =>
        match jpegEncode img with
        | none => (ch, .droppedEncode)
        | some jpeg => ((send ch jpeg).1, .sent)
  | .wouldBlock => (ch, .slept)
  | .fatal => (ch, .fatalStop)

/-- Byte sequence of a string (its code points): models Rust string data
written to the wire.  All literals involved are ASCII. -/
def strBytes (s : String) : List Nat := s.data.map Char.toNat

/-- The two-byte CRLF terminator. -/
def crlf : List Nat := strBytes "\r\n"

/-- Bytes of the fixed part of the record header, up to (excluding) the
Content-Length value. -/
def recordHead : List Nat :=
  strBytes "--frame\r\nContent-Type: image/jpeg\r\nContent-Length: "

/-- Decimal representation of `n` as ASCII digit bytes, most significant
first: the output of `format!("{}", n)` for a nonnegative integer. -/
def decimalBytes (n : Nat) : List Nat :=
  if n = 0 then [48] else (Nat.digits 10 n).reverse.map (fun d => d + 48)

/-- Parse ASCII decimal digit bytes (most significant first) back into the
number they denote. -/
def decimalValue (ds : List Nat) : Nat :=
  Nat.ofDigits 10 (ds.reverse.map (fun d => d - 48))

/-- Bytes of the full record header produced by the `format!` at
main.rs:72–75: the fixed part, the decimal Content-Length value, and the
`\r\n\r\n` blank-line terminator. -/
def headerBytes (n : Nat) : List Nat :=
  recordHead ++ decimalBytes n ++ crlf ++ crlf

/-- The three `Bytes` chunks yielded per received frame at main.rs:76–78:
the header, the JPEG bytes, and a trailing CRLF. -/
def mjpegChunks (jpeg : Frame) : List (List Nat) :=
  [headerBytes jpeg.length, jpeg, crlf]

/-- The wire record for one frame: the three chunks concatenated. -/
def mjpegRecord (jpeg : Frame) : List Nat := (mjpegChunks jpeg).flatten

/-- A completed `rx.recv().await` as matched by the stream-writer loop at
main.rs:70–82: exactly the three arms of the source's `match`. -/
inductive RecvOutcome where
  | ok (f : Frame)
  | lagged (n : Nat)
  | closed
  deriving DecidableEq

/-- The stream-writer loop (main.rs:70–82) over a sequence of completed
`recv` results: on `Ok` yield the three record chunks and continue; on
`Lagged` continue silently; on `Closed` break.  Returns the chunks
written to the connection and whether the loop ended via `Closed`. -/
def runWriter : List RecvOutcome → List (List Nat) × Bool
  | [] => ([], false)
  | .ok f :: rest =>
    let out := runWriter rest
    (mjpegChunks f ++ out.1, out.2)
  | .lagged _ :: rest => runWriter rest
  | .closed :: _ => ([], true)

/-- Number of live `Sender` handles once `main` is set up: the original
`frame_tx` (alive in `main`'s frame until `warp::serve(...).run(...).await`
returns, which never happens), the capture thread's clone (main.rs:15),
and the `/stream` route closure's clone (main.rs:65), alive as long as
the route serves. -/
def mainSenderCount : Nat := 3

/-- Effect on the channel of the capture loop terminating via the `break`
at main.rs:56: the capture thread ends, dropping its one `Sender` clone;
no other handle is affected and nothing further is sent. -/
def afterCaptureFatal (ch : Channel) : Channel :=
  { ch with senders := ch.senders - 1 }

/-- A JPEG-sized test frame of 100 bytes. -/
def f100 : Frame := List.replicate 100 1

/-- A JPEG-sized test frame of 200 bytes. -/
def f200 : Frame := List.replicate 200 2

/-- A JPEG-sized test frame of 150 bytes. -/
def f150 : Frame := List.replicate 150 3

/-- The spec's scenario channel before any publish: capacity 2, two
subscribers (both cursors at 0), one producer handle. -/
def chScenarioStart : Channel :=
  { history := [], senders := 1, receivers := 2, cap := 2 }

/-- The scenario channel after publishing the 100-, 200- and 150-byte
frames. -/
def chScenario : Channel :=
  (send ((send ((send chScenarioStart f100).1) f200).1) f150).1

/-- The channel as configured by `main`: capacity 16, `mainSenderCount`
live sender handles, one subscriber (cursor 0). -/
def chMain : Channel :=
  { history := [], senders := mainSenderCount, receivers := 1, cap := 16 }

/-- The channel with no subscriber at all. -/
def chNoRx : Channel :=
  { history := [], senders := mainSenderCount, receivers := 0, cap := 16 }

/-- A concrete stand-in encoder for witnesses: always succeeds with a
fixed two-byte output. -/
def encConst : List Nat → Option Frame := fun _ => some [255, 216]

/-!
## Helper lemmas
-/

theorem bgraToRgba_length (l : List Nat) (h : l.length % 4 = 0) :
    (bgraToRgba l).length = l.length := by
  induction l using bgraToRgba.induct with
  | case1 b g r a rest ih =>
    simp only [List.length_cons] at h
    have hr : rest.length % 4 = 0 := by omega
    simp only [bgraToRgba, List.length_cons, ih hr]
  | case2 t hm =>
    rcases t with _ | ⟨b, _ | ⟨g, _ | ⟨r, _ | ⟨a, rest⟩⟩⟩⟩
    · rfl
    · simp at h
    · simp [Nat.add_mod] at h
    · simp [Nat.add_mod] at h
    · exact absurd rfl (hm b g r a rest)

theorem bgraToRgba_involutive (l : List Nat) (h : l.length % 4 = 0) :
    bgraToRgba (bgraToRgba l) = l := by
  induction l using bgraToRgba.induct with
  | case1 b g r a rest ih =>
    simp only [List.length_cons] at h
    have hr : rest.length % 4 = 0 := by omega
    simp only [bgraToRgba, ih hr]
  | case2 t hm =>
    rcases t with _ | ⟨b, _ | ⟨g, _ | ⟨r, _ | ⟨a, rest⟩⟩⟩⟩
    · rfl
    · simp at h
    · simp [Nat.add_mod] at h
    · simp [Nat.add_mod] at h
    · exact absurd rfl (hm b g r a rest)

theorem bgraToRgba_count (l : List Nat) (h : l.length % 4 = 0) (x : Nat) :
    (bgraToRgba l).count x = l.count x := by
  induction l using bgraToRgba.induct with
  | case1 b g r a rest ih =>
    simp only [List.length_cons] at h
    have hr : rest.length % 4 = 0 := by omega
    simp only [bgraToRgba, List.count_cons, ih hr]
    omega
  | case2 t hm =>
    rcases t with _ | ⟨b, _ | ⟨g, _ | ⟨r, _ | ⟨a, rest⟩⟩⟩⟩
    · rfl
    · simp at h
    · simp [Nat.add_mod] at h
    · simp [Nat.add_mod] at h
    · exact absurd rfl (hm b g r a rest)

theorem bgraToRgba_perm (l : List Nat) (h : l.length % 4 = 0) :
    (bgraToRgba l).Perm l :=
  List.perm_iff_count.mpr (fun x => bgraToRgba_count l h x)

theorem recv_some (ch : Channel) (c : Nat) (f : Frame)
    (h1 : ch.oldest ≤ c) (h2 : ch.history[c]? = some f) :
    recv ch c = (.ok f, c + 1) := by
  unfold recv
  rw [if_neg (by omega), h2]

theorem recv_lagged_eq (ch : Channel) (c : Nat) (h : c < ch.oldest) :
    recv ch c = (.lagged (ch.oldest - c), ch.oldest) := by
  unfold recv
  rw [if_pos h]

theorem recv_not_closed (ch : Channel) (c : Nat) (hs : ch.senders ≠ 0) :
    (recv ch c).1 ≠ RecvResult.closed := by
  unfold recv
  split <;> simp_all
  split <;> simp_all

theorem drain_eq_drop (ch : Channel) :
    ∀ (n c : Nat), ch.oldest ≤ c → ch.tailPos - c ≤ n →
      drain ch c n = (ch.history.drop c).map RecvResult.ok := by
  intro n
  induction n with
  | zero =>
    intro c h1 h2
    have hl : ch.history.length ≤ c := by
      have ht : ch.tailPos = ch.history.length := rfl
      omega
    simp [drain, List.drop_eq_nil_of_le hl]
  | succ n ih =>
    intro c h1 h2
    have ht : ch.tailPos = ch.history.length := rfl
    by_cases hc : c < ch.history.length
    · have hsome : ch.history[c]? = some (ch.history.get ⟨c, hc⟩) := by
        rw [List.getElem?_eq_getElem hc]
        simp [List.get_eq_getElem]
      rw [drain, recv_some ch c _ h1 hsome]
      show RecvResult.ok (ch.history.get ⟨c, hc⟩) :: drain ch (c + 1) n
          = (ch.history.drop c).map RecvResult.ok
      rw [ih (c + 1) (by omega) (by omega), List.drop_eq_getElem_cons hc,
        List.map_cons]
      rfl
    · have hnone : ch.history[c]? = none := by
        rw [List.getElem?_eq_none_iff]
        omega
      have hdrop : ch.history.drop c = [] := List.drop_eq_nil_of_le (by omega)
      rw [drain, hdrop]
      unfold recv
      rw [if_neg (by omega), hnone]
      by_cases hs : ch.senders = 0
      · rw [if_pos hs]
        rfl
      · rw [if_neg hs]
        rfl

theorem pubThenRead_all_ok :
    ∀ (fs : List Frame) (ch : Channel), 1 ≤ ch.cap → ch.receivers ≠ 0 →
      pubThenRead ch ch.tailPos fs = fs.map RecvResult.ok := by
  intro fs
  induction fs with
  | nil =>
    intro ch _ _
    rfl
  | cons f fs ih =>
    intro ch h1 h2
    have hsend : (send ch f).1 = { ch with history := ch.history ++ [f] } := by
      unfold send
      rw [if_neg h2]
    set ch2 : Channel := { ch with history := ch.history ++ [f] } with hch2
    have htp : ch2.tailPos = ch.tailPos + 1 := by
      simp [Channel.tailPos, hch2]
    have hold : ch2.oldest ≤ ch.tailPos := by
      have : ch2.oldest = ch2.tailPos - ch2.cap := rfl
      have hc2 : ch2.cap = ch.cap := rfl
      omega
    have hsome : ch2.history[ch.tailPos]? = some f := by
      have : ch2.history = ch.history ++ [f] := rfl
      rw [this]
      have hl : ch.tailPos = ch.history.length := rfl
      rw [hl]
      simp
    have hrecv : recv ch2 ch.tailPos = (.ok f, ch.tailPos + 1) :=
      recv_some ch2 ch.tailPos f hold hsome
    show (fun ch c =>
      let ch2 := (send ch f).1
      let r := recv ch2 c
      r.1 :: pubThenRead ch2 r.2 fs) ch ch.tailPos = _
    simp only [hsend, ← hch2, hrecv]
    rw [← htp, ih ch2 (by rw [show ch2.cap = ch.cap from rfl]; exact h1)
      (by rw [show ch2.receivers = ch.receivers from rfl]; exact h2)]
    rfl

theorem captureStep_size_mismatch (enc : List Nat → Option Frame)
    (w h : Nat) (ch : Channel) (frame : List Nat)
    (hsz : frame.length ≠ w * h * 4) :
    captureStep enc w h ch (.ok frame) = (ch, .droppedSize) := by
  simp only [captureStep]
  rw [if_pos hsz]

theorem captureStep_image_none (enc : List Nat → Option Frame)
    (w h : Nat) (ch : Channel) (frame : List Nat)
    (hsz : ¬frame.length ≠ w * h * 4)
    (hi : imageFromRaw w h (bgraToRgba frame) = none) :
    captureStep enc w h ch (.ok frame) = (ch, .droppedImage) := by
  simp only [captureStep]
  rw [if_neg hsz, hi]

theorem captureStep_encode_none (enc : List Nat → Option Frame)
    (w h : Nat) (ch : Channel) (frame img : List Nat)
    (hsz : ¬frame.length ≠ w * h * 4)
    (hi : imageFromRaw w h (bgraToRgba frame) = some img)
    (he : enc img = none) :
    captureStep enc w h ch (.ok frame) = (ch, .droppedEncode) := by
  simp only [captureStep]
  rw [if_neg hsz, hi]
  show (match enc img with
    | none => (ch, StepOutcome.droppedEncode)
    | some jpeg => ((send ch jpeg).1, StepOutcome.sent)) = (ch, .droppedEncode)
  rw [he]

theorem captureStep_encode_some (enc : List Nat → Option Frame)
    (w h : Nat) (ch : Channel) (frame img jpeg : List Nat)
    (hsz : ¬frame.length ≠ w * h * 4)
    (hi : imageFromRaw w h (bgraToRgba frame) = some img)
    (he : enc img = some jpeg) :
    captureStep enc w h ch (.ok frame) = ((send ch jpeg).1, .sent) := by
  simp only [captureStep]
  rw [if_neg hsz, hi]
  show (match enc img with
    | none => (ch, StepOutcome.droppedEncode)
    | some jpeg => ((send ch jpeg).1, StepOutcome.sent))
    = ((send ch jpeg).1, .sent)
  rw [he]

theorem decimalValue_decimalBytes (n : Nat) :
    decimalValue (decimalBytes n) = n := by
  unfold decimalValue decimalBytes
  by_cases h : n = 0
  · subst h
    decide
  · rw [if_neg h]
    rw [← List.map_reverse, List.reverse_reverse, List.map_map]
    have hmap : ∀ (l : List Nat), l.map ((fun d => d - 48) ∘ (fun d => d + 48)) = l := by
      intro l
      induction l with
      | nil => rfl
      | cons d l ih => simp [ih]
    rw [hmap, Nat.ofDigits_digits]


/-!
## Claim theorems
-/

/-- C1 counterexample: with `main`'s three live `Sender` handles and one
subscriber at cursor 0, the capture loop's fatal termination drops only
the capture thread's clone, leaving two live `Sender` handles (the
`/stream` route closure's and `main`'s own); the subscriber's `recv`
therefore keeps pending at an unchanged cursor and never returns
`Closed`, falsifying the claim that every subscription observes `Closed`
exactly once. -/
theorem C1_counterexample :
    recv (afterCaptureFatal chMain) 0 = (RecvResult.pend, 0)
  ∧ (recv (afterCaptureFatal chMain) 0).1 ≠ RecvResult.closed
  ∧ (afterCaptureFatal chMain).senders = 2 := by
  refine ⟨by decide, by decide, by decide⟩

/-- C1 (amended): if the capture loop terminates due to a fatal
(non-WouldBlock) device error, no further frame is published, but the
Distributor's input is NOT closed — the route closure's and `main`'s
`Sender` clones stay live — so no existing or future subscription ever
observes `Closed` from `recv`; a drained subscriber pends forever
instead. -/
theorem C1_fatal_leaves_channel_open (ch : Channel)
    (hs : ch.senders = mainSenderCount) :
    (afterCaptureFatal ch).history = ch.history
  ∧ (afterCaptureFatal ch).senders ≠ 0
  ∧ (∀ c, (recv (afterCaptureFatal ch) c).1 ≠ RecvResult.closed) := by
  have hs2 : (afterCaptureFatal ch).senders ≠ 0 := by
    show ch.senders - 1 ≠ 0
    rw [hs]
    decide
  exact ⟨rfl, hs2, fun c => recv_not_closed _ c hs2⟩

/-- Witness for C1's amended theorem at the channel `main` builds. -/
theorem C1_fatal_leaves_channel_open_witness :
    chMain.senders = mainSenderCount
  ∧ ((afterCaptureFatal chMain).history = chMain.history
     ∧ (afterCaptureFatal chMain).senders ≠ 0
     ∧ (∀ c, (recv (afterCaptureFatal chMain) c).1 ≠ RecvResult.closed)) :=
  ⟨rfl, C1_fatal_leaves_channel_open chMain rfl⟩

/-- C2: a subscriber that reads promptly after every publish receives
exactly the published frames in publish order; a subscriber whose cursor
fell behind the readable window observes, after the lag signal, exactly a
strict suffix of the publish order — never reordered, never
duplicated. -/
theorem C2_delivery_order :
    (∀ (ch : Channel) (fs : List Frame), 1 ≤ ch.cap → ch.receivers ≠ 0 →
      pubThenRead ch ch.tailPos fs = fs.map RecvResult.ok)
  ∧ (∀ (ch : Channel) (c : Nat), c < ch.oldest →
      drain ch c (ch.tailPos - c + 1)
        = RecvResult.lagged (ch.oldest - c)
            :: (ch.history.drop ch.oldest).map RecvResult.ok
      ∧ List.IsSuffix (ch.history.drop ch.oldest) ch.history
      ∧ ch.history.drop ch.oldest ≠ ch.history) := by
  constructor
  · exact fun ch fs h1 h2 => pubThenRead_all_ok fs ch h1 h2
  · intro ch c hlag
    have hod : ch.oldest = ch.history.length - ch.cap := rfl
    have ht : ch.tailPos = ch.history.length := rfl
    refine ⟨?_, List.drop_suffix _ _, ?_⟩
    · rw [show ch.tailPos - c + 1 = (ch.tailPos - c) + 1 from rfl, drain,
        recv_lagged_eq ch c hlag]
      show RecvResult.lagged (ch.oldest - c) :: drain ch ch.oldest (ch.tailPos - c) = _
      rw [drain_eq_drop ch (ch.tailPos - c) ch.oldest le_rfl (by omega)]
    · intro heq
      have hlen := congrArg List.length heq
      rw [List.length_drop] at hlen
      omega

/-- Witness for C2 on the concrete scenario channels. -/
theorem C2_delivery_order_witness :
    pubThenRead chScenarioStart chScenarioStart.tailPos [f100, f200, f150]
      = [f100, f200, f150].map RecvResult.ok
  ∧ (drain chScenario 0 (chScenario.tailPos - 0 + 1)
      = RecvResult.lagged (chScenario.oldest - 0)
          :: (chScenario.history.drop chScenario.oldest).map RecvResult.ok
     ∧ List.IsSuffix (chScenario.history.drop chScenario.oldest) chScenario.history
     ∧ chScenario.history.drop chScenario.oldest ≠ chScenario.history) :=
  ⟨C2_delivery_order.1 chScenarioStart [f100, f200, f150] (by decide) (by decide),
   C2_delivery_order.2 chScenario 0 (by decide)⟩

/-- C3: a subscriber that stopped reading while more than `cap` frames
were published gets `Lagged(k)` with `k` exactly the number of frames it
missed (`k` plus the frames still deliverable equals everything published
past its cursor), its cursor jumps just past the `k` missed frames, and
subsequent reads return the remaining history in publish order starting
at the first frame after the missed ones. -/
theorem C3_lagged_resume (ch : Channel) (c : Nat)
    (h : c + ch.cap < ch.tailPos) :
    recv ch c = (RecvResult.lagged ((ch.tailPos - c) - ch.cap), ch.oldest)
  ∧ ch.oldest = c + ((ch.tailPos - c) - ch.cap)
  ∧ drain ch (recv ch c).2 (ch.tailPos - ch.oldest)
      = (ch.history.drop (c + ((ch.tailPos - c) - ch.cap))).map RecvResult.ok
  ∧ ((ch.tailPos - c) - ch.cap) + (ch.history.drop ch.oldest).length
      = ch.tailPos - c := by
  have hod : ch.oldest = ch.tailPos - ch.cap := rfl
  have ht : ch.tailPos = ch.history.length := rfl
  have hlag : c < ch.oldest := by omega
  have heq : ch.oldest - c = (ch.tailPos - c) - ch.cap := by omega
  have hre : recv ch c
      = (RecvResult.lagged ((ch.tailPos - c) - ch.cap), ch.oldest) := by
    rw [recv_lagged_eq ch c hlag, heq]
  have hidx : c + ((ch.tailPos - c) - ch.cap) = ch.oldest := by omega
  refine ⟨hre, by omega, ?_, ?_⟩
  · rw [hre, hidx]
    exact drain_eq_drop ch (ch.tailPos - ch.oldest) ch.oldest le_rfl le_rfl
  · rw [List.length_drop]
    omega

/-- Witness for C3: capacity 2, three publishes, cursor still at 0. -/
theorem C3_lagged_resume_witness :
    0 + chScenario.cap < chScenario.tailPos
  ∧ (recv chScenario 0
       = (RecvResult.lagged ((chScenario.tailPos - 0) - chScenario.cap),
          chScenario.oldest)
     ∧ chScenario.oldest = 0 + ((chScenario.tailPos - 0) - chScenario.cap)
     ∧ drain chScenario (recv chScenario 0).2
         (chScenario.tailPos - chScenario.oldest)
         = (chScenario.history.drop
             (0 + ((chScenario.tailPos - 0) - chScenario.cap))).map RecvResult.ok
     ∧ ((chScenario.tailPos - 0) - chScenario.cap)
         + (chScenario.history.drop chScenario.oldest).length
         = chScenario.tailPos - 0) :=
  ⟨by decide, C3_lagged_resume chScenario 0 (by decide)⟩

/-- C4 counterexample: in the spec's capacity-2 scenario the delayed
subscriber's reads are `Lagged(1)`, then the 200-byte frame, then the
150-byte frame — not `Lagged(1)` directly followed by the 150-byte
frame as the claim states. -/
theorem C4_counterexample :
    drain chScenario 0 4
      = [RecvResult.lagged 1, RecvResult.ok f200, RecvResult.ok f150]
  ∧ drain chScenario 0 4 ≠ [RecvResult.lagged 1, RecvResult.ok f150] := by
  refine ⟨by decide, by decide⟩

/-- C4 (amended): with capacity 2 and publishes of sizes [100, 200, 150],
the prompt subscriber receives all three frames in order, and the delayed
subscriber receives `Lagged(1)` followed by the 200-byte frame and then
the 150-byte frame. -/
theorem C4_scenario :
    pubThenRead chScenarioStart chScenarioStart.tailPos [f100, f200, f150]
      = [RecvResult.ok f100, RecvResult.ok f200, RecvResult.ok f150]
  ∧ drain chScenario 0 4
      = [RecvResult.lagged 1, RecvResult.ok f200, RecvResult.ok f150] := by
  refine ⟨by decide, by decide⟩

/-- C5: the wire record emitted for a JPEG frame is exactly the header
bytes (fixed text, the decimal Content-Length value, and the blank line),
then the frame bytes, then a trailing CRLF; the Content-Length digits
decode to the frame's byte count; and the payload between the blank line
and the trailing CRLF is exactly that many bytes. -/
theorem C5_record_format (jpeg : Frame) :
    mjpegRecord jpeg = headerBytes jpeg.length ++ jpeg ++ crlf
  ∧ headerBytes jpeg.length
      = recordHead ++ decimalBytes jpeg.length ++ crlf ++ crlf
  ∧ decimalValue (decimalBytes jpeg.length) = jpeg.length
  ∧ (mjpegRecord jpeg).drop (headerBytes jpeg.length).length = jpeg ++ crlf
  ∧ ((mjpegRecord jpeg).drop (headerBytes jpeg.length).length).take jpeg.length
      = jpeg
  ∧ (mjpegRecord jpeg).length
      = (headerBytes jpeg.length).length + jpeg.length + 2 := by
  have hrec : mjpegRecord jpeg = headerBytes jpeg.length ++ (jpeg ++ crlf) := by
    simp [mjpegRecord, mjpegChunks]
  have hdrop : (mjpegRecord jpeg).drop (headerBytes jpeg.length).length
      = jpeg ++ crlf := by
    rw [hrec, List.drop_left]
  refine ⟨hrec.trans (List.append_assoc _ _ _).symm, rfl,
    decimalValue_decimalBytes jpeg.length, hdrop, ?_, ?_⟩
  · rw [hdrop]
    exact List.take_left jpeg crlf
  · rw [hrec, List.length_append, List.length_append,
      show crlf.length = 2 from rfl]
    omega

/-- C6: the BGRA→RGBA reordering is, on buffers whose length is a
multiple of 4, a length-preserving byte permutation and self-inverse:
applying the channel-pair swap twice reproduces the original byte
sequence. -/
theorem C6_reorder_bijection (l : List Nat) (h : l.length % 4 = 0) :
    (bgraToRgba l).length = l.length
  ∧ (bgraToRgba l).Perm l
  ∧ bgraToRgba (bgraToRgba l) = l :=
  ⟨bgraToRgba_length l h, bgraToRgba_perm l h, bgraToRgba_involutive l h⟩

/-- Witness for C6 on a concrete 8-byte buffer. -/
theorem C6_reorder_bijection_witness :
    ([10, 20, 30, 40, 50, 60, 70, 80] : List Nat).length % 4 = 0
  ∧ ((bgraToRgba [10, 20, 30, 40, 50, 60, 70, 80]).length
       = ([10, 20, 30, 40, 50, 60, 70, 80] : List Nat).length
     ∧ (bgraToRgba [10, 20, 30, 40, 50, 60, 70, 80]).Perm
         [10, 20, 30, 40, 50, 60, 70, 80]
     ∧ bgraToRgba (bgraToRgba [10, 20, 30, 40, 50, 60, 70, 80])
         = [10, 20, 30, 40, 50, 60, 70, 80]) :=
  ⟨by decide, C6_reorder_bijection [10, 20, 30, 40, 50, 60, 70, 80] (by decide)⟩

/-- C7: publishing with zero subscribers is a total no-op for the channel
(the frame is dropped, nothing stored, nothing blocks), and the capture
loop is unaffected: the send result is discarded by
`let _ = frame_tx.send(...)`, the iteration leaves the channel unchanged
and the loop keeps running. -/
theorem C7_publish_without_subscribers (enc : List Nat → Option Frame)
    (w h : Nat) (ch : Channel) (f : Frame) (frame : List Nat)
    (hrx : ch.receivers = 0) :
    (send ch f).1 = ch
  ∧ (captureStep enc w h ch (.ok frame)).1 = ch
  ∧ ((captureStep enc w h ch (.ok frame)).2).loops = true := by
  have hsend : ∀ g : Frame, (send ch g).1 = ch := by
    intro g
    unfold send
    rw [if_pos hrx]
  have hcap : (captureStep enc w h ch (.ok frame)).1 = ch
      ∧ ((captureStep enc w h ch (.ok frame)).2).loops = true := by
    by_cases hsz : frame.length ≠ w * h * 4
    · rw [captureStep_size_mismatch enc w h ch frame hsz]
      exact ⟨rfl, rfl⟩
    · cases hi : imageFromRaw w h (bgraToRgba frame) with
      | none =>
        rw [captureStep_image_none enc w h ch frame hsz hi]
        exact ⟨rfl, rfl⟩
      | some img =>
        cases he : enc img with
        | none =>
          rw [captureStep_encode_none enc w h ch frame img hsz hi he]
          exact ⟨rfl, rfl⟩
        | some jpeg =>
          rw [captureStep_encode_some enc w h ch frame img jpeg hsz hi he]
          exact ⟨hsend jpeg, rfl⟩
  exact ⟨hsend f, hcap.1, hcap.2⟩

/-- Witness for C7 on the subscriber-less channel. -/
theorem C7_publish_without_subscribers_witness :
    chNoRx.receivers = 0
  ∧ ((send chNoRx [1, 2]).1 = chNoRx
     ∧ (captureStep encConst 1 1 chNoRx (.ok [1, 2, 3, 4])).1 = chNoRx
     ∧ ((captureStep encConst 1 1 chNoRx (.ok [1, 2, 3, 4])).2).loops = true) :=
  ⟨rfl, C7_publish_without_subscribers encConst 1 1 chNoRx [1, 2] [1, 2, 3, 4] rfl⟩

/-- C8: a captured frame whose buffer length differs from
`width * height * 4` is discarded: the iteration publishes nothing, the
channel is untouched, and the loop keeps running. -/
theorem C8_size_mismatch_drops (enc : List Nat → Option Frame) (w h : Nat)
    (ch : Channel) (frame : List Nat) (hsz : frame.length ≠ w * h * 4) :
    captureStep enc w h ch (.ok frame) = (ch, .droppedSize)
  ∧ StepOutcome.droppedSize.loops = true :=
  ⟨captureStep_size_mismatch enc w h ch frame hsz, rfl⟩

/-- Witness for C8 on a one-byte frame against a 1×1 display. -/
theorem C8_size_mismatch_drops_witness :
    ([9] : List Nat).length ≠ 1 * 1 * 4
  ∧ (captureStep encConst 1 1 chMain (.ok [9]) = (chMain, .droppedSize)
     ∧ StepOutcome.droppedSize.loops = true) :=
  ⟨by decide, C8_size_mismatch_drops encConst 1 1 chMain [9] (by decide)⟩

/-- C9: the stream-writer loop never ends because of lag: a `Lagged`
result is skipped silently and the loop goes on delivering the later
frames unchanged; a `Closed` result breaks immediately; and the loop
terminates (other than by a transport write failure, which lives outside
this loop) exactly when a `Closed` arrives. -/
theorem C9_writer_lag_policy :
    (∀ (n : Nat) (rest : List RecvOutcome),
        runWriter (RecvOutcome.lagged n :: rest) = runWriter rest)
  ∧ (∀ rest : List RecvOutcome,
        runWriter (RecvOutcome.closed :: rest) = ([], true))
  ∧ (∀ outs : List RecvOutcome,
        (runWriter outs).2 = true ↔ RecvOutcome.closed ∈ outs) := by
  refine ⟨fun n rest => rfl, fun rest => rfl, ?_⟩
  intro outs
  induction outs with
  | nil => simp [runWriter]
  | cons o rest ih =>
    cases o with
    | ok f => simpa [runWriter] using ih
    | lagged n => simpa [runWriter] using ih
    | closed => simp [runWriter]

/-- C10: once a frame passed the size check, the reordered buffer has
exactly `w * h * 4` bytes, so `ImageBuffer::from_raw` always succeeds:
the silent-drop branch for a failed image construction is unreachable,
and a valid-size frame either reaches the send or fails only at the
(logged) JPEG-encode step. -/
theorem C10_valid_size_image_total (enc : List Nat → Option Frame)
    (w h : Nat) (ch : Channel) (frame : List Nat)
    (hsz : frame.length = w * h * 4) :
    imageFromRaw w h (bgraToRgba frame) = some (bgraToRgba frame)
  ∧ (captureStep enc w h ch (.ok frame)).2 ≠ StepOutcome.droppedImage
  ∧ ((captureStep enc w h ch (.ok frame)).2 = StepOutcome.sent
      ∨ (captureStep enc w h ch (.ok frame)).2 = StepOutcome.droppedEncode) := by
  have hmod : frame.length % 4 = 0 := by
    rw [hsz]
    exact Nat.mul_mod_left (w * h) 4
  have hlen : (bgraToRgba frame).length = frame.length :=
    bgraToRgba_length frame hmod
  have himg : imageFromRaw w h (bgraToRgba frame) = some (bgraToRgba frame) := by
    unfold imageFromRaw
    rw [if_pos (by omega)]
  have hnn : ¬(frame.length ≠ w * h * 4) := by omega
  have hcase : (captureStep enc w h ch (.ok frame)).2 ≠ StepOutcome.droppedImage
      ∧ ((captureStep enc w h ch (.ok frame)).2 = StepOutcome.sent
          ∨ (captureStep enc w h ch (.ok frame)).2 = StepOutcome.droppedEncode) := by
    cases he : enc (bgraToRgba frame) with
    | none =>
      rw [captureStep_encode_none enc w h ch frame (bgraToRgba frame) hnn himg he]
      exact ⟨by simp, Or.inr rfl⟩
    | some jpeg =>
      rw [captureStep_encode_some enc w h ch frame (bgraToRgba frame) jpeg hnn himg he]
      exact ⟨by simp, Or.inl rfl⟩
  exact ⟨himg, hcase.1, hcase.2⟩

/-- Witness for C10 on a 4-byte frame against a 1×1 display. -/
theorem C10_valid_size_image_total_witness :
    ([1, 2, 3, 4] : List Nat).length = 1 * 1 * 4
  ∧ (imageFromRaw 1 1 (bgraToRgba [1, 2, 3, 4]) = some (bgraToRgba [1, 2, 3, 4])
     ∧ (captureStep encConst 1 1 chMain (.ok [1, 2, 3, 4])).2
         ≠ StepOutcome.droppedImage
     ∧ ((captureStep encConst 1 1 chMain (.ok [1, 2, 3, 4])).2 = StepOutcome.sent
         ∨ (captureStep encConst 1 1 chMain (.ok [1, 2, 3, 4])).2
             = StepOutcome.droppedEncode)) :=
  ⟨by decide, C10_valid_size_image_total encConst 1 1 chMain [1, 2, 3, 4] (by decide)⟩

end Streamer
